import Mathlib

/-!
Verification of the gitz compiler core (semantic analyzer in
`src/analyzer.js`, IR constructors in `src/core.js`, IR optimizer in
`src/optimizer.js`) against its natural-language specification.

The JavaScript code is shallowly embedded: IR nodes and raw JavaScript
values that can occur in IR positions become one inductive type `Expr`
(statement-kind nodes become `Stmt`), the dynamically typed `type`
fields become `Option Ty` (`none` models the JavaScript value
`undefined`), and functions that can throw become `Except String` /
`Option` valued.  JavaScript `Number` values are modelled as `ℚ`
(exact rationals; float rounding, `NaN` and `Infinity` are outside the
model, and none of the verified claims depend on them).  `BigInt`
operands, which no part of the analyzer ever produces, are not
modelled.
-/

set_option maxHeartbeats 1600000

namespace Gitz

/-- Types as the code manipulates them.  In `src/core.js` the primitive
types and list types are plain strings (`"num"`, `"list<num>"`, ...,
built by `listType`), while `functionType`, `optionalType`, `arrayType`
and `mapType` build tagged objects.  `Ty.str` covers the string-typed
values; the remaining constructors cover the object-typed values. -/
inductive Ty where
  | str (s : String)
  | fnT (paramTypes : List Ty) (returnType : Ty)
  | optT (base : Ty)
  | arrT (base : Ty)
  | mapT (k v : Ty)
deriving BEq

mutual
/-- Decidable equality for `Ty` (structural, mirroring the fact that the
analyzer compares the string-typed types with `===`, which is value
equality for strings; for the object-typed types `===` is reference
equality, which structural equality over-approximates — no claim
depends on the difference). -/
def Ty.decEq : (a b : Ty) → Decidable (a = b)
  | .str a, .str b =>
      match String.decEq a b with
      | isTrue h => isTrue (by rw [h])
      | isFalse h => isFalse (by simp [h])
  | .str _, .fnT _ _ => isFalse (by simp)
  | .str _, .optT _ => isFalse (by simp)
  | .str _, .arrT _ => isFalse (by simp)
  | .str _, .mapT _ _ => isFalse (by simp)
  | .fnT _ _, .str _ => isFalse (by simp)
  | .fnT ps r, .fnT qs s =>
      match Ty.decEqList ps qs, Ty.decEq r s with
      | isTrue h1, isTrue h2 => isTrue (by rw [h1, h2])
      | isFalse h1, _ => isFalse (by simp [h1])
      | _, isFalse h2 => isFalse (by simp [h2])
  | .fnT _ _, .optT _ => isFalse (by simp)
  | .fnT _ _, .arrT _ => isFalse (by simp)
  | .fnT _ _, .mapT _ _ => isFalse (by simp)
  | .optT _, .str _ => isFalse (by simp)
  | .optT _, .fnT _ _ => isFalse (by simp)
  | .optT a, .optT b =>
      match Ty.decEq a b with
      | isTrue h => isTrue (by rw [h])
      | isFalse h => isFalse (by simp [h])
  | .optT _, .arrT _ => isFalse (by simp)
  | .optT _, .mapT _ _ => isFalse (by simp)
  | .arrT _, .str _ => isFalse (by simp)
  | .arrT _, .fnT _ _ => isFalse (by simp)
  | .arrT _, .optT _ => isFalse (by simp)
  | .arrT a, .arrT b =>
      match Ty.decEq a b with
      | isTrue h => isTrue (by rw [h])
      | isFalse h => isFalse (by simp [h])
  | .arrT _, .mapT _ _ => isFalse (by simp)
  | .mapT _ _, .str _ => isFalse (by simp)
  | .mapT _ _, .fnT _ _ => isFalse (by simp)
  | .mapT _ _, .optT _ => isFalse (by simp)
  | .mapT _ _, .arrT _ => isFalse (by simp)
  | .mapT a b, .mapT c d =>
      match Ty.decEq a c, Ty.decEq b d with
      | isTrue h1, isTrue h2 => isTrue (by rw [h1, h2])
      | isFalse h1, _ => isFalse (by simp [h1])
      | _, isFalse h2 => isFalse (by simp [h2])

def Ty.decEqList : (a b : List Ty) → Decidable (a = b)
  | [], [] => isTrue rfl
  | [], _ :: _ => isFalse (by simp)
  | _ :: _, [] => isFalse (by simp)
  | a :: as, b :: bs =>
      match Ty.decEq a b, Ty.decEqList as bs with
      | isTrue h1, isTrue h2 => isTrue (by rw [h1, h2])
      | isFalse h1, _ => isFalse (by simp [h1])
      | _, isFalse h2 => isFalse (by simp [h2])
end

instance : DecidableEq Ty := Ty.decEq

/-- Basic type constants from `src/core.js`. -/
def numTy : Ty := .str "num"

def textTy : Ty := .str "text"

def boolTy : Ty := .str "bool"

def voidTy : Ty := .str "void"

def anyTy : Ty := .str "any"

/-- core.js `listType`: list types are strings built by template
interpolation, so the element type must itself be a string type in
every call the analyzer makes. -/
def listTy (base : String) : Ty := .str ("list<" ++ base ++ ">")

/-- A `Function` entity as built by `core.fun` / `core.intrinsicFunction`
in `src/core.js`.  `core.fun(name, params = [], body = [], type = null)`
returns `{kind, name, params, body, type}`; `core.intrinsicFunction`
returns `{kind, name, type, intrinsic: true}`.  Neither constructor sets
a `returnType` property, so reading `.returnType` yields `undefined`
(modelled by `returnTypeField = none`); reading `.intrinsic` on an
ordinary function yields `undefined` (falsy, modelled by `false`).  The
`params` and `body` fields are not consulted by any verified claim; the
optimizer model carries a function body on the `FunctionDeclaration`
statement node where the optimizer actually rewrites it. -/
structure FunEntity where
  name : String
  ty : Ty
  intrinsic : Bool
  returnTypeField : Option Ty
deriving DecidableEq

/-- core.fun as called by the analyzer (`FunDecl_funDecl`, analyzer.js
lines 199-205): the analyzer passes five arguments
`(name, paramList, [], functionType(paramTypes, returnType), returnType)`
but `core.fun` declares only four parameters, so the trailing
`returnType` argument is silently dropped and the resulting object has
no `returnType` property. -/
def coreFun (name : String) (ty : Ty) : FunEntity :=
  ⟨name, ty, false, none⟩

/-- core.intrinsicFunction. -/
def intrinsicFun (name : String) (ty : Ty) : FunEntity :=
  ⟨name, ty, true, none⟩

/-- Values that can occur in IR expression positions.  This covers both
the typed IR nodes built by the analyzer (`NumberLiteral`, `Variable`,
`BinaryExpression`, ...) and the raw JavaScript values (numbers,
booleans, strings, `undefined`) that the optimizer and its tests use as
literals; `src/core.js` patches `Number.prototype.type` and friends so
raw values carry gitz types too.

`unknownE tag` models a node `{kind: tag}` whose kind is not among the
optimizer-handled kinds (such as the `Foo`, `Bar` and `ElseIfStatement`
nodes in `test/optimizer.test.js`); the optimizer returns such nodes
unchanged.  `voidCallNode kind args` models the `{kind, args}` nodes
built by `core.functionCall` for void intrinsics (kind `Print`,
`Println`, ...); of these only kind `Print` has an optimizer handler.

Aliasing is not representable in a tree model: the one place the
optimizer compares nodes with `===` (assignment self-elimination) is
modelled by structural equality, which agrees with reference equality
on all IR the analyzer or the tests build. -/
inductive Expr where
  | jsNum (v : ℚ)
  | jsBool (b : Bool)
  | jsStr (s : String)
  | undef
  | numberLit (v : ℚ)
  | stringLit (v : String)
  | boolLit (b : Bool)
  | varE (name : String) (mutFlag : Bool) (ty : Ty)
  | funE (f : FunEntity)
  | binaryE (op : String) (left right : Expr) (ty : Option Ty)
  | unaryE (op : String) (operand : Expr) (ty : Option Ty)
  | condE (test consequent alternate : Expr) (ty : Option Ty)
  | emptyOptional (base : Ty)
  | subscriptE (array index : Expr) (ty : Option Ty)
  | arrayE (elements : List Expr) (ty : Option Ty)
  | emptyArrayE (ty : Option Ty)
  | memberE (object : Expr) (op : String) (fieldName : String) (ty : Option Ty)
  | callE (callee : Expr) (args : List Expr) (ty : Option Ty)
  | ctorCallE (args : List Expr) (ty : Option Ty)
  | listLit (elements : List Expr) (ty : Option Ty)
  | voidCallNode (kind : String) (args : List Expr)
  | unknownE (tag : String)

/-- The `type` property of an expression value: IR nodes carry their
`type` field (possibly `undefined` = `none`); raw values get types from
the prototype patches at the bottom of `src/core.js`
(`Number.prototype.type = numType` and so on); `undefined` and the
`{kind, args}` intrinsic nodes have no type. -/
def Expr.typeOf : Expr → Option Ty
  | .jsNum _ => some numTy
  | .jsBool _ => some boolTy
  | .jsStr _ => some textTy
  | .undef => none
  | .numberLit _ => some numTy
  | .stringLit _ => some textTy
  | .boolLit _ => some boolTy
  | .varE _ _ ty => some ty
  | .funE f => some f.ty
  | .binaryE _ _ _ ty => ty
  | .unaryE _ _ ty => ty
  | .condE _ _ _ ty => ty
  | .emptyOptional base => some (.optT base)
  | .subscriptE _ _ ty => ty
  | .arrayE _ ty => ty
  | .emptyArrayE ty => ty
  | .memberE _ _ _ ty => ty
  | .callE _ _ ty => ty
  | .ctorCallE _ ty => ty
  | .listLit _ ty => ty
  | .voidCallNode _ _ => none
  | .unknownE _ => none

mutual
/-- Statement-kind IR nodes.  `exprStmt e` is an expression node used in
statement position (`FunCallStatement` puts call nodes directly into
statement lists).  `unknownS tag` models statement nodes `{kind: tag}`
with a kind the optimizer does not handle. -/
inductive Stmt where
  | varDeclS (v : Expr) (initializer : Expr)
  | funDeclS (fn : FunEntity) (body : List Stmt)
  | incrementS (v : Expr)
  | decrementS (v : Expr)
  | assignS (target source : Expr)
  | breakS
  | continueS
  | shortReturnS
  | returnS (e : Expr)
  | ifS (test : Expr) (consequent : List Stmt) (alternate : Alt)
  | shortIfS (test : Expr) (consequent : List Stmt)
  | whileS (test : Expr) (body : List Stmt)
  | repeatS (count : Expr) (body : List Stmt)
  | forRangeS (iter : Expr) (low : Expr) (op : String) (high : Expr) (body : List Stmt)
  | forS (iter : Expr) (collection : Expr) (body : List Stmt)
  | tryS (tryBlock : List Stmt) (errorVar : String) (catchBlock : List Stmt)
  | sayS (args : List Expr)
  | exprStmt (e : Expr)
  | unknownS (tag : String)

/-- The `alternate` field of an `IfStatement`: `null` (when the source
`When` has no `orElse`), a nested if node, or a statement array. -/
inductive Alt where
  | nullAlt
  | nodeAlt (s : Stmt)
  | blockAlt (ss : List Stmt)
end

/-- A `Program` IR root. -/
structure Program where
  statements : List Stmt

/-- The result of `optimize` on a statement-position node: either a
single node or an array of statements (to be spliced by the callers
`flatMap`). -/
inductive SRes where
  | node (s : Stmt)
  | list (ss : List Stmt)

/-- Splicing an optimize result into a statement list, as `flatMap`
does in JavaScript. -/
def SRes.toList : SRes → List Stmt
  | .node s => [s]
  | .list ss => ss

/-- Storing an optimize result back into an `alternate` field. -/
def SRes.toAlt : SRes → Alt
  | .node s => .nodeAlt s
  | .list ss => .blockAlt ss

/-- The `kind` string of an expression value (`undefined` = `none` for
raw values, which have no `kind` property). -/
def Expr.kind : Expr → Option String
  | .jsNum _ => none
  | .jsBool _ => none
  | .jsStr _ => none
  | .undef => none
  | .numberLit _ => some "NumberLiteral"
  | .stringLit _ => some "StringLiteral"
  | .boolLit _ => some "BooleanLiteral"
  | .varE _ _ _ => some "Variable"
  | .funE _ => some "Function"
  | .binaryE _ _ _ _ => some "BinaryExpression"
  | .unaryE _ _ _ => some "UnaryExpression"
  | .condE _ _ _ _ => some "Conditional"
  | .emptyOptional _ => some "EmptyOptional"
  | .subscriptE _ _ _ => some "SubscriptExpression"
  | .arrayE _ _ => some "ArrayExpression"
  | .emptyArrayE _ => some "EmptyArray"
  | .memberE _ _ _ _ => some "MemberExpression"
  | .callE _ _ _ => some "FunctionCall"
  | .ctorCallE _ _ => some "ConstructorCall"
  | .listLit _ _ => some "ListLiteral"
  | .voidCallNode k _ => some k
  | .unknownE tag => some tag

/-- The `kind` string of a statement node. -/
def Stmt.kind : Stmt → Option String
  | .varDeclS _ _ => some "VariableDeclaration"
  | .funDeclS _ _ => some "FunctionDeclaration"
  | .incrementS _ => some "Increment"
  | .decrementS _ => some "Decrement"
  | .assignS _ _ => some "Assignment"
  | .breakS => some "BreakStatement"
  | .continueS => some "ContinueStatement"
  | .shortReturnS => some "ShortReturnStatement"
  | .returnS _ => some "ReturnStatement"
  | .ifS _ _ _ => some "IfStatement"
  | .shortIfS _ _ => some "ShortIfStatement"
  | .whileS _ _ => some "WhileStatement"
  | .repeatS _ _ => some "RepeatStatement"
  | .forRangeS _ _ _ _ _ => some "ForRangeStatement"
  | .forS _ _ _ => some "ForStatement"
  | .tryS _ _ _ => some "TryStatement"
  | .sayS _ => some "SayStatement"
  | .exprStmt e => e.kind
  | .unknownS tag => some tag

/-- JavaScript `String.prototype.startsWith`, defined over character
lists (the library `String.startsWith` does not reduce inside the
kernel). -/
def jsStartsWith (s pre : String) : Bool :=
  pre.data.isPrefixOf s.data

/-- JavaScript `String.prototype.endsWith`, over character lists. -/
def jsEndsWith (s suf : String) : Bool :=
  suf.data.isSuffixOf s.data

/-- Dropping the first `n` characters (`slice(n)`), over character
lists. -/
def jsDrop (s : String) (n : Nat) : String :=
  String.mk (s.data.drop n)

/-- Dropping the last `n` characters (the `-n` end of `slice`), over
character lists. -/
def jsDropRight (s : String) (n : Nat) : String :=
  String.mk (s.data.take (s.data.length - n))

/-- Taking the first `n` characters, over character lists. -/
def jsTake (s : String) (n : Nat) : String :=
  String.mk (s.data.take n)

/-- The dispatch test `s.alternate?.kind?.endsWith("IfStatement")` from
the `IfStatement` optimizer. -/
def Stmt.kindEndsWithIf (s : Stmt) : Bool :=
  match s.kind with
  | some k => jsEndsWith k "IfStatement"
  | none => false

/-- Test for a raw JavaScript number (`constructor === Number`). -/
def Expr.isJsNum : Expr → Bool
  | .jsNum _ => true
  | _ => false

/-- Test for the raw value `true` (the strict comparison `=== true`). -/
def Expr.isTrueLit : Expr → Bool
  | .jsBool true => true
  | _ => false

/-- Test for the raw value `false` (the strict comparison `=== false`). -/
def Expr.isFalseLit : Expr → Bool
  | .jsBool false => true
  | _ => false

/-- optimizer.js `isZero` on an expression position (`n === 0`; the
`0n` BigInt case is not modelled). -/
def Expr.isZeroNum : Expr → Bool
  | .jsNum v => v == 0
  | _ => false

/-- optimizer.js `isOne` on an expression position. -/
def Expr.isOneNum : Expr → Bool
  | .jsNum v => v == 1
  | _ => false

/-- Test for an `EmptyOptional` node. -/
def Expr.isEmptyOptionalNode : Expr → Bool
  | .emptyOptional _ => true
  | _ => false

/-- The `collection.kind === "EmptyArray"` test of the `ForStatement`
optimizer. -/
def Expr.isEmptyArrayNode (e : Expr) : Bool :=
  e.kind == some "EmptyArray"

/-- The `typeof low === "number" && typeof high === "number" &&
low > high` test of the `ForRangeStatement` optimizer. -/
def lowGtHigh : Expr → Expr → Bool
  | .jsNum a, .jsNum b => decide (a > b)
  | _, _ => false

mutual
/-- Structural equality of expression values, modelling the strict
comparison `s.source === s.target` in the `Assignment` optimizer:
value equality on raw JavaScript values (exactly `===`), structural
equality on nodes (see the aliasing note on `Expr`). -/
def Expr.eqb : Expr → Expr → Bool
  | .jsNum a, .jsNum b => a == b
  | .jsBool a, .jsBool b => a == b
  | .jsStr a, .jsStr b => a == b
  | .undef, .undef => true
  | .numberLit a, .numberLit b => a == b
  | .stringLit a, .stringLit b => a == b
  | .boolLit a, .boolLit b => a == b
  | .varE n m t, .varE n2 m2 t2 => n == n2 && m == m2 && decide (t = t2)
  | .funE f, .funE g => decide (f = g)
  | .binaryE o l r t, .binaryE o2 l2 r2 t2 =>
      o == o2 && Expr.eqb l l2 && Expr.eqb r r2 && decide (t = t2)
  | .unaryE o x t, .unaryE o2 x2 t2 => o == o2 && Expr.eqb x x2 && decide (t = t2)
  | .condE a b c t, .condE a2 b2 c2 t2 =>
      Expr.eqb a a2 && Expr.eqb b b2 && Expr.eqb c c2 && decide (t = t2)
  | .emptyOptional a, .emptyOptional b => decide (a = b)
  | .subscriptE a i t, .subscriptE a2 i2 t2 =>
      Expr.eqb a a2 && Expr.eqb i i2 && decide (t = t2)
  | .arrayE es t, .arrayE es2 t2 => Expr.eqbList es es2 && decide (t = t2)
  | .emptyArrayE t, .emptyArrayE t2 => decide (t = t2)
  | .memberE o p f t, .memberE o2 p2 f2 t2 =>
      Expr.eqb o o2 && p == p2 && f == f2 && decide (t = t2)
  | .callE c es t, .callE c2 es2 t2 =>
      Expr.eqb c c2 && Expr.eqbList es es2 && decide (t = t2)
  | .ctorCallE es t, .ctorCallE es2 t2 => Expr.eqbList es es2 && decide (t = t2)
  | .listLit es t, .listLit es2 t2 => Expr.eqbList es es2 && decide (t = t2)
  | .voidCallNode k es, .voidCallNode k2 es2 => k == k2 && Expr.eqbList es es2
  | .unknownE a, .unknownE b => a == b
  | _, _ => false

/-- Elementwise structural equality of expression lists. -/
def Expr.eqbList : List Expr → List Expr → Bool
  | [], [] => true
  | a :: as, b :: bs => Expr.eqb a b && Expr.eqbList as bs
  | _, _ => false
end

/-- JavaScript `**` restricted to the rational model: exact for integer
exponents (the only exponents the verified claims and the test-suite
use); a fractional exponent would produce an irrational float, which
the rational model maps to 0. -/
def jsPow (a b : ℚ) : ℚ :=
  if b.den = 1 then a ^ b.num else 0

/-- The both-operands-constant `switch (e.op)` of the `BinaryExpression`
optimizer: folds the eleven listed operators, falls through (`none`)
for any other operator. -/
def foldOp (op : String) (a b : ℚ) : Option Expr :=
  if op = "+" then some (.jsNum (a + b))
  else if op = "-" then some (.jsNum (a - b))
  else if op = "*" then some (.jsNum (a * b))
  else if op = "/" then some (.jsNum (a / b))
  else if op = "**" then some (.jsNum (jsPow a b))
  else if op = "<" then some (.jsBool (decide (a < b)))
  else if op = "<=" then some (.jsBool (decide (a ≤ b)))
  else if op = "==" then some (.jsBool (a == b))
  else if op = "!=" then some (.jsBool (!(a == b)))
  else if op = ">=" then some (.jsBool (decide (a ≥ b)))
  else if op = ">" then some (.jsBool (decide (a > b)))
  else none

/-- The constant fold fires only when both operands are raw numbers. -/
def foldConst (op : String) (l r : Expr) : Option Expr :=
  match l with
  | .jsNum a =>
      match r with
      | .jsNum b => foldOp op a b
      | _ => none
  | _ => none

/-- The `??`-unwrap and the boolean short-circuit rewrites, tried in
source order before the constant fold. -/
def binShortcut (op : String) (l r : Expr) : Option Expr :=
  if op = "??" ∧ l.isEmptyOptionalNode then some r
  else if op = "||" ∧ l.isFalseLit then some r
  else if op = "||" ∧ r.isFalseLit then some l
  else if op = "&&" ∧ l.isTrueLit then some r
  else if op = "&&" ∧ r.isTrueLit then some l
  else none

/-- Right-operand-constant strength reductions (the second reduction
block of the `BinaryExpression` optimizer). -/
def rightRed (op : String) (l r : Expr) (ty : Option Ty) : Expr :=
  if r.isJsNum then
    if op = "+" ∧ r.isZeroNum then l
    else if (op = "*" ∨ op = "/") ∧ r.isOneNum then l
    else if op = "*" ∧ r.isZeroNum then .jsNum 0
    else if op = "**" ∧ r.isZeroNum then .jsNum 1
    else .binaryE op l r ty
  else .binaryE op l r ty

/-- Left-operand-constant strength reductions (the first reduction
block); when none fires, control falls through to the right-operand
block. -/
def leftRed (op : String) (l r : Expr) (ty : Option Ty) : Expr :=
  if l.isJsNum then
    if l.isZeroNum ∧ op = "+" then r
    else if l.isOneNum ∧ op = "*" then r
    else if l.isZeroNum ∧ op = "-" then .unaryE "-" r r.typeOf
    else if l.isZeroNum ∧ (op = "*" ∨ op = "/") then .jsNum 0
    else rightRed op l r ty
  else rightRed op l r ty

/-- The whole `BinaryExpression` optimizer body, applied to the already
optimized operands. -/
def binRules (op : String) (l r : Expr) (ty : Option Ty) : Expr :=
  match binShortcut op l r with
  | some e => e
  | none =>
    match foldConst op l r with
    | some e => e
    | none => leftRed op l r ty

/-- The `UnaryExpression` optimizer body (constant negation of a raw
number), applied to the already optimized operand. -/
def unRules (op : String) (x : Expr) (ty : Option Ty) : Expr :=
  if op = "-" then
    match x with
    | .jsNum v => .jsNum (-v)
    | _ => .unaryE op x ty
  else .unaryE op x ty

/-- The `Conditional` optimizer body, applied to already optimized
children. -/
def condRules (t c a : Expr) (ty : Option Ty) : Expr :=
  if t.isTrueLit then c
  else if t.isFalseLit then a
  else .condE t c a ty

mutual
/-- optimizer.js `optimize` on an expression-position node.  Dispatch is
by `kind`: handled kinds get their rewrite, every other node (raw
values, `NumberLiteral`-style literal nodes, `Variable`, `ListLiteral`,
`EmptyOptional`, `EmptyArray`, unknown kinds, ...) is returned
unchanged without visiting its children.  Expression optimization never
throws. -/
def optE : Expr → Expr
  | .binaryE op l r ty => binRules op (optE l) (optE r) ty
  | .unaryE op x ty => unRules op (optE x) ty
  | .condE t c a ty => condRules (optE t) (optE c) (optE a) ty
  | .subscriptE arr idx ty => .subscriptE arr (optE idx) ty
  | .arrayE els ty => .arrayE (optEList els) ty
  | .memberE obj op fieldName ty => .memberE (optE obj) op fieldName ty
  | .callE callee args ty => .callE callee (optEList args) ty
  | .ctorCallE args ty => .ctorCallE (optEList args) ty
  | .voidCallNode k args =>
      if k = "Print" then .voidCallNode k (optEList args) else .voidCallNode k args
  | e => e

/-- `Array.prototype.map(optimize)` over expression children. -/
def optEList : List Expr → List Expr
  | [] => []
  | e :: es => optE e :: optEList es

/-- optimizer.js `optimize` on a statement-position node.  A result of
`none` models a thrown `TypeError`; the only throwing path is an
`IfStatement` whose `alternate` is `null` (or a non-array node whose
kind does not end in `IfStatement`), where the source calls
`s.alternate.flatMap(optimize)` on a value with no `flatMap`. -/
def optS : Stmt → Option SRes
  | .varDeclS v init => some (.node (.varDeclS v (optE init)))
  | .funDeclS fn body => (optSList body).map (fun b => .node (.funDeclS fn b))
  | .incrementS v => some (.node (.incrementS (optE v)))
  | .decrementS v => some (.node (.decrementS (optE v)))
  | .assignS target source =>
      let s := optE source
      let t := optE target
      if Expr.eqb s t then some (.list []) else some (.node (.assignS t s))
  | .breakS => some (.node .breakS)
  | .continueS => some (.node .continueS)
  | .shortReturnS => some (.node .shortReturnS)
  | .returnS e => some (.node (.returnS (optE e)))
  | .ifS test cons alt => do
      let t := optE test
      let c ← optSList cons
      let a ← optAlt alt
      if t.isTrueLit then pure (.list c)
      else if t.isFalseLit then pure a
      else pure (.node (.ifS t c a.toAlt))
  | .shortIfS test cons => do
      let t := optE test
      let c ← optSList cons
      if t.isTrueLit then pure (.list c)
      else if t.isFalseLit then pure (.list [])
      else pure (.node (.shortIfS t c))
  | .whileS test body =>
      let t := optE test
      if t.isFalseLit then some (.list [])
      else (optSList body).map (fun b => .node (.whileS t b))
  | .repeatS count body =>
      let c := optE count
      if c.isZeroNum then some (.list [])
      else (optSList body).map (fun b => .node (.repeatS c b))
  | .forRangeS iter low op high body => do
      let lo := optE low
      let hi := optE high
      let b ← optSList body
      if lowGtHigh lo hi then pure (.list [])
      else pure (.node (.forRangeS iter lo op hi b))
  | .forS iter coll body => do
      let c := optE coll
      let b ← optSList body
      if c.isEmptyArrayNode then pure (.list [])
      else pure (.node (.forS iter c b))
  | .tryS t v c => some (.node (.tryS t v c))
  | .sayS args => some (.node (.sayS args))
  | .exprStmt e => some (.node (.exprStmt (optE e)))
  | .unknownS tag => some (.node (.unknownS tag))

/-- `Array.prototype.flatMap(optimize)` over a statement list. -/
def optSList : List Stmt → Option (List Stmt)
  | [] => some []
  | s :: rest => do
      let r ← optS s
      let rest2 ← optSList rest
      pure (r.toList ++ rest2)

/-- The `alternate` handling of the `IfStatement` optimizer: a node
whose kind ends in `IfStatement` is optimized as a node; an array is
flat-mapped; `null` (and any other non-array node) crashes on
`.flatMap`. -/
def optAlt : Alt → Option SRes
  | .nullAlt => none
  | .nodeAlt s => if s.kindEndsWithIf then optS s else none
  | .blockAlt ss => (optSList ss).map .list
end

/-- optimizer.js `optimize` on a `Program` root. -/
def optP (p : Program) : Option Program :=
  (optSList p.statements).map Program.mk

/-! ## Semantic analyzer (`src/analyzer.js`)

The analyzer walks the CST; here each semantic action the claims
depend on is embedded as a function over already-represented children
(the upstream parser contract of the specification).  The ambient
mutable `context` variable becomes an explicit `Ctx` argument; actions
that bind names return the updated context. -/

/-- JavaScript template-literal stringification of a type value as it
appears inside error messages: string types print themselves, the
object types print as `[object Object]`. -/
def showTy : Ty → String
  | .str s => s
  | _ => "[object Object]"

/-- Stringification of a possibly `undefined` type value. -/
def showOptTy : Option Ty → String
  | some t => showTy t
  | none => "undefined"

/-- analyzer.js `Context`: a binding map (entities are the same
JavaScript values the expressions use), an optional parent, the
loop flag, and the enclosing function. -/
inductive Ctx where
  | mk (locals : List (String × Expr)) (parent : Option Ctx) (inLoop : Bool)
      (currentFunction : Option FunEntity)

/-- The binding list of a context. -/
def Ctx.locals : Ctx → List (String × Expr)
  | .mk ls _ _ _ => ls

/-- The parent of a context. -/
def Ctx.parent : Ctx → Option Ctx
  | .mk _ p _ _ => p

/-- The loop flag of a context. -/
def Ctx.inLoop : Ctx → Bool
  | .mk _ _ l _ => l

/-- The enclosing function of a context. -/
def Ctx.currentFunction : Ctx → Option FunEntity
  | .mk _ _ _ f => f

/-- `this.locals.has(name)`: the innermost scope only. -/
def Ctx.hasLocal (c : Ctx) (name : String) : Bool :=
  c.locals.any (fun p => p.1 == name)

/-- `Context.add` (analyzer.js lines 22-27): throws when the name is
already bound in this scope, regardless of what is being bound;
otherwise binds it.  Ancestor scopes are never consulted, so shadowing
an outer binding succeeds. -/
def Ctx.add (c : Ctx) (name : String) (entity : Expr) : Except String Ctx :=
  if c.hasLocal name then .error ("Identifier " ++ name ++ " already declared")
  else .ok (.mk (c.locals ++ [(name, entity)]) c.parent c.inLoop c.currentFunction)

/-- `Context.lookup` (analyzer.js lines 29-37): this scope first, then
the parent chain, throwing at the root. -/
def Ctx.lookup : Ctx → String → Except String Expr
  | .mk ls p _ _, name =>
    match ls.find? (fun q => q.1 == name) with
    | some q => .ok q.2
    | none =>
      match p with
      | some c => Ctx.lookup c name
      | none => .error ("Identifier " ++ name ++ " is not declared")

/-- `newChildContext({ inLoop: true })` as the loop rules call it.  The
`Context` constructor defaults `currentFunction` to `null` and the
props object does not carry it, so the child context loses the
enclosing-function reference. -/
def Ctx.newChildLoop (c : Ctx) : Ctx :=
  .mk [] (some c) true none

/-- analyzer.js `mustNotAlreadyBeDeclared`: checks `context.locals`
only. -/
def mustNotAlreadyBeDeclared (ctx : Ctx) (name : String) : Except String Unit :=
  if ctx.hasLocal name then .error ("Identifier " ++ name ++ " already declared")
  else .ok ()

/-- analyzer.js `mustBeAssignable`: `any` on either side is a wildcard,
otherwise the two types must be strictly equal.  Either side may be the
JavaScript value `undefined` (= `none`); `undefined === undefined`
holds, and `undefined` never equals `"any"` or a real type. -/
def mustBeAssignable (sourceTy toTy : Option Ty) : Except String Unit :=
  if sourceTy = some anyTy || toTy = some anyTy then .ok ()
  else if sourceTy = toTy then .ok ()
  else .error ("Cannot assign " ++ showOptTy sourceTy ++ " to " ++ showOptTy toTy)

/-- analyzer.js `mustHaveNumericType`. -/
def mustHaveNumericType (e : Expr) : Except String Unit :=
  if e.typeOf = some numTy then .ok () else .error "Expected a number"

/-- analyzer.js `mustBothHaveSameType`: strict equality of the two
`type` fields. -/
def mustBothHaveSameType (e1 e2 : Expr) : Except String Unit :=
  if e1.typeOf = e2.typeOf then .ok () else .error "Operands must have same type"

/-- The loop of `mustAllHaveSameType`: every later element against the
first. -/
def mustAllSameAux (e0 : Expr) : List Expr → Except String Unit
  | [] => .ok ()
  | e :: es => do
      mustBothHaveSameType e0 e
      mustAllSameAux e0 es

/-- analyzer.js `mustAllHaveSameType`. -/
def mustAllHaveSameType : List Expr → Except String Unit
  | [] => .ok ()
  | e0 :: rest => mustAllSameAux e0 rest

/-- analyzer.js `isMutable`: `e?.kind === "Variable" && e.mutable`.
Only a `Variable` entity with its mutability flag set qualifies; raw
strings and every other node kind fail the `kind` test. -/
def isMutable : Expr → Bool
  | .varE _ m _ => m
  | _ => false

/-- analyzer.js `mustBeMutable`. -/
def mustBeMutable (e : Expr) : Except String Unit :=
  if isMutable e then .ok () else .error "Cannot assign to immutable variable"

/-- The rep of a bare-identifier assignment target in
`Assignment_assignValid`.  The semantics object defines no action for
the lexical rule `id`, so the `_nonterminal` fallback
(`return getRep(children[0])`) descends through `letter` to the first
character terminal, whose `_terminal` action returns its source string:
the rep is a one-character raw string, never the scope entity. -/
def assignIdLhsRep (name : String) : Expr :=
  .jsStr (jsTake name 1)

/-- `Assignment_assignValid` (analyzer.js lines 319-325), applied to the
reps of the two children: mutability check on the left rep, then
assignability, then an `Assignment` node. -/
def analyzeAssignValid (lhs source : Expr) : Except String Stmt := do
  mustBeMutable lhs
  mustBeAssignable source.typeOf lhs.typeOf
  .ok (.assignS lhs source)

/-- core.js `listType`: a template string, so an `undefined` or object
element type is stringified into the list type. -/
def coreListType (base : Option Ty) : Ty :=
  .str ("list<" ++ showOptTy base ++ ">")

/-- `ListExp_listExp` (analyzer.js lines 596-603): element type from
the first element (defaulting to `"any"` when empty), all elements
checked against it, result a `ListLiteral` node. -/
def listExpRep (elements : List Expr) : Except String Expr :=
  match elements with
  | [] => .ok (.listLit [] (some (coreListType (some anyTy))))
  | e0 :: rest => do
      mustAllHaveSameType (e0 :: rest)
      .ok (.listLit (e0 :: rest) (some (coreListType e0.typeOf)))

/-- The empty-list special case of `VarDecl_varDecl` /
`ListDecl_listDecl`: an initializer that is a `ListLiteral` with no
elements has its `type` field overwritten with the declared type. -/
def unifyEmptyList (init : Expr) (declared : Ty) : Expr :=
  match init with
  | .listLit [] _ => .listLit [] (some declared)
  | e => e

/-- `VarDecl_varDecl` (analyzer.js lines 136-152; `ListDecl_listDecl`
is the same code).  The declared variable is built by
`core.variable(name, true, varType)` — the mutability flag is `true`.
With no initializer the code calls `core.emptyInitializer`, which
`src/core.js` does not export, so that path throws a `TypeError`. -/
def analyzeVarDecl (ctx : Ctx) (name : String) (declared : Ty) (initOpt : Option Expr) :
    Except String (Ctx × Stmt) := do
  mustNotAlreadyBeDeclared ctx name
  let v : Expr := .varE name true declared
  match initOpt with
  | some init0 =>
      let init := unifyEmptyList init0 declared
      mustBeAssignable init.typeOf (some declared)
      let ctx2 ← ctx.add name v
      .ok (ctx2, .varDeclS v init)
  | none => .error "core.emptyInitializer is not a function"

/-- The function entity built by `FunDecl_funDecl` (analyzer.js lines
199-205): `core.fun(name, paramList, [], functionType(paramTypes,
returnType), returnType)`, whose fifth argument `core.fun` drops. -/
def funDeclEntity (name : String) (paramTypes : List Ty) (returnType : Ty) : FunEntity :=
  coreFun name (.fnT paramTypes returnType)

/-- `ReturnStmt_returnStmt` (analyzer.js lines 233-244) applied to the
rep of the returned expression: requires an enclosing function; reads
`currentFunction.returnType` (which `core.fun` never sets — see
`coreFun`); the `void` comparison is against that read value; otherwise
assignability against it. -/
def analyzeReturnStmt (ctx : Ctx) (expr : Expr) : Except String Stmt :=
  match ctx.currentFunction with
  | none => .error "Return used outside of a function"
  | some f =>
      let expectedType := f.returnTypeField
      if expectedType = some voidTy then
        .error ("Cannot assign " ++ showOptTy expr.typeOf ++ " to void")
      else do
        mustBeAssignable expr.typeOf expectedType
        .ok (.returnS expr)

/-- The element-type computation of `LoopStmt_loopForEach`:
`collection.type.startsWith("list<") ? collection.type.slice(5, -1)
: "any"`.  A missing or object-valued `type` has no `startsWith`
method, so the code throws a `TypeError` there. -/
def loopElemTy : Option Ty → Except String Ty
  | some (.str s) =>
      .ok (if jsStartsWith s "list<" then .str (jsDropRight (jsDrop s 5) 1) else anyTy)
  | _ => .error "TypeError: collection.type.startsWith is not a function"

/-- `LoopStmt_loopForEach` (analyzer.js lines 279-292): computes the
element type (no list requirement — any string type falls back to
`"any"`), binds the loop variable **in the current context** via
`context.add`, and only then creates the child context in which the
body is analyzed; the saved (current) context, still holding the loop
variable, is restored afterwards and returned. -/
def analyzeLoopForEach (ctx : Ctx) (iterName : String) (collection : Expr)
    (analyzeBody : Ctx → Except String (List Stmt)) : Except String (Ctx × Stmt) := do
  let baseType ← loopElemTy collection.typeOf
  let v : Expr := .varE iterName true baseType
  let ctx2 ← ctx.add iterName v
  let body ← analyzeBody ctx2.newChildLoop
  .ok (ctx2, .forS v collection body)

/-- The first-letter capitalization `name.replace(/^\p{L}/u, c =>
c.toUpperCase())` used by `core.functionCall` (ASCII backing of
`Char.toUpper` suffices: every intrinsic name is ASCII). -/
def capitalize (s : String) : String :=
  match s.data with
  | [] => s
  | c :: cs => String.mk (c.toUpper :: cs)

/-- The `FunctionCall` node branch of `core.functionCall`, with its
`callee.type?.returnType || anyType` type computation. -/
def mkFunctionCallNode (callee : Expr) (args : List Expr) : Expr :=
  .callE callee args (some (match callee.typeOf with
    | some (.fnT _ ret) => ret
    | _ => anyTy))

/-- core.js `functionCall` (lines 169-185): an intrinsic callee never
produces a `FunctionCall` node — a void return type yields a
`{kind: capitalize(name), args}` node (which has **no** `type` field),
one declared parameter yields a `UnaryExpression`, anything else a
`BinaryExpression`, the latter two carrying the declared return type.
Out-of-range `args[i]` reads are the JavaScript value `undefined`.  An
intrinsic whose `type` is not a `FunctionType` would crash reading
`paramTypes` (no registry intrinsic is built that way). -/
def coreFunctionCall (callee : Expr) (args : List Expr) : Except String Expr :=
  match callee with
  | .funE f =>
      if f.intrinsic then
        match f.ty with
        | .fnT ps ret =>
            if ret = voidTy then .ok (.voidCallNode (capitalize f.name) args)
            else if ps.length = 1 then .ok (.unaryE f.name (args.headD .undef) (some ret))
            else .ok (.binaryE f.name (args.headD .undef) (args.getD 1 .undef) (some ret))
        | _ => .error "TypeError: cannot read paramTypes of a non-function type"
      else .ok (mkFunctionCallNode (.funE f) args)
  | c => .ok (mkFunctionCallNode c args)

/-- `ArgList_argList` (analyzer.js lines 369-380): collects the comma
separated argument reps and requires them all to share the first
element's type. -/
def argListRep (first : Expr) (rest : List Expr) : Except String (List Expr) := do
  mustAllHaveSameType (first :: rest)
  .ok (first :: rest)

/-- `ExpList_expList` (analyzer.js lines 605-616): identical code to
`ArgList_argList`. -/
def expListRep (first : Expr) (rest : List Expr) : Except String (List Expr) := do
  mustAllHaveSameType (first :: rest)
  .ok (first :: rest)

/-- `SayStmt_sayStmt` (analyzer.js lines 314-317): reps the optional
`ExpList` (which performs the same-type check) and wraps it. -/
def analyzeSayStmt (argsOpt : Option (Expr × List Expr)) : Except String Stmt :=
  match argsOpt with
  | none => .ok (.sayS [])
  | some (f, r) => (expListRep f r).map .sayS

/-- One argument against one (possibly absent) declared parameter type:
a `num` parameter demands exactly `num`, anything else goes through
`mustBeAssignable`. -/
def checkCallArg (arg : Expr) (expected : Option Ty) : Except String Unit :=
  match expected with
  | some t => if t = numTy then mustHaveNumericType arg else mustBeAssignable arg.typeOf (some t)
  | none => mustBeAssignable arg.typeOf none

/-- The `args.forEach` loop of `FunCall_funCallArgs`. -/
def checkCallArgs : List Expr → List Ty → Except String Unit
  | [], _ => .ok ()
  | a :: as, ps => do
      checkCallArg a ps.head?
      checkCallArgs as ps.tail

/-- `FunCall_funCallArgs` (analyzer.js lines 342-360): looks the callee
up, reps the argument list (same-type gate), then requires
`target.type.kind === "FunctionType"`, then exact arity, then the
per-argument checks, and finally builds the node via
`core.functionCall`. -/
def analyzeFunCallArgs (ctx : Ctx) (idName : String) (argList : Option (Expr × List Expr)) :
    Except String Expr := do
  let target ← ctx.lookup idName
  let args ← match argList with
    | some (f, r) => argListRep f r
    | none => .ok []
  match target.typeOf with
  | some (.fnT paramTypes _) =>
      if paramTypes.length = args.length then do
        checkCallArgs args paramTypes
        coreFunctionCall target args
      else
        .error ("Expected " ++ toString paramTypes.length ++ " arguments but got "
          ++ toString args.length)
  | _ => .error (idName ++ " is not a function")

/-- The frozen intrinsic registry `core.standardLibrary` plus the `π`
override of `Context.root`, as context bindings.  The primitive type
names are bound to their type strings (raw strings), `π` to an
immutable variable, the intrinsics to `Function` entities. -/
def standardLibraryEntries : List (String × Expr) :=
  [("num", .jsStr "num"), ("text", .jsStr "text"), ("bool", .jsStr "bool"),
   ("void", .jsStr "void"), ("any", .jsStr "any"),
   ("π", .varE "π" false numTy),
   ("print", .funE (intrinsicFun "print" (.fnT [anyTy] voidTy))),
   ("println", .funE (intrinsicFun "println" (.fnT [anyTy] voidTy))),
   ("sqrt", .funE (intrinsicFun "sqrt" (.fnT [numTy] numTy))),
   ("sin", .funE (intrinsicFun "sin" (.fnT [numTy] numTy))),
   ("cos", .funE (intrinsicFun "cos" (.fnT [numTy] numTy))),
   ("exp", .funE (intrinsicFun "exp" (.fnT [numTy] numTy))),
   ("ln", .funE (intrinsicFun "ln" (.fnT [numTy] numTy))),
   ("hypot", .funE (intrinsicFun "hypot" (.fnT [numTy, numTy] numTy))),
   ("bytes", .funE (intrinsicFun "bytes" (.fnT [textTy] (coreListType (some numTy))))),
   ("codepoints", .funE (intrinsicFun "codepoints" (.fnT [textTy] (coreListType (some numTy))))),
   ("len", .funE (intrinsicFun "len" (.fnT [coreListType (some anyTy)] numTy))),
   ("keys", .funE (intrinsicFun "keys"
      (.fnT [.mapT anyTy anyTy] (coreListType (some anyTy))))),
   ("values", .funE (intrinsicFun "values"
      (.fnT [.mapT anyTy anyTy] (coreListType (some anyTy)))))]

/-- `Context.root` (analyzer.js lines 39-49): the registry entries plus
the `true` / `false` literal bindings. -/
def rootCtx : Ctx :=
  .mk (standardLibraryEntries ++ [("true", .boolLit true), ("false", .boolLit false)])
    none false none

/-- Modelled from the spec (the per-argument call legality as §4.3
words it, for comparison with the code path `checkCallArgs`): each
argument must be assignable to the corresponding parameter type, and a
`num` parameter additionally requires the argument to be exactly of
type `num`. -/
def argOkSpec (arg : Expr) (expected : Ty) : Prop :=
  if expected = numTy then arg.typeOf = some numTy
  else arg.typeOf = some anyTy ∨ expected = anyTy ∨ arg.typeOf = some expected

/-- A statement node is optimizer-fixed when a second optimization pass
returns exactly the same single node. -/
def StmtFixed (s : Stmt) : Prop := optS s = some (.node s)

/-- Every element of an already-optimized statement list is fixed, so a
second `flatMap(optimize)` pass reproduces the list. -/
def ListFixed (ss : List Stmt) : Prop := ∀ s ∈ ss, StmtFixed s

/-- Fixedness of an optimize result. -/
def ResFixed : SRes → Prop
  | .node s => StmtFixed s
  | .list ss => ListFixed ss

/-! ## Theorems: the scope chain and declarations -/

/-- C5: declaring a name already bound in the same scope fails with the
already-declared error regardless of the entity (hence of the types)
being bound, while a name that is at most bound in an ancestor scope is
added successfully (shadowing across scopes is allowed — `hasLocal`
never consults the parent chain). -/
theorem duplicate_declaration_iff_local (ctx : Ctx) (name : String) (e : Expr) :
    (ctx.hasLocal name = true →
        ctx.add name e = .error ("Identifier " ++ name ++ " already declared")) ∧
    (ctx.hasLocal name = false →
        ctx.add name e =
          .ok (.mk (ctx.locals ++ [(name, e)]) ctx.parent ctx.inLoop ctx.currentFunction)) := by
  constructor <;> intro h <;> simp [Ctx.add, h]

/-- Witness for C5: a duplicate in the same scope is rejected even with
a different type of entity, and shadowing a parent-scope binding
succeeds. -/
theorem duplicate_declaration_iff_local_witness :
    (Ctx.mk [("x", .numberLit 1)] none false none).add "x" (.boolLit true) =
        .error ("Identifier " ++ "x" ++ " already declared") ∧
    (Ctx.mk [] (some (.mk [("x", .numberLit 1)] none false none)) false none).add "x"
        (.boolLit true) =
      .ok (.mk ([] ++ [("x", .boolLit true)]) (some (.mk [("x", .numberLit 1)] none false none))
        false none) :=
  ⟨(duplicate_declaration_iff_local _ "x" _).1 rfl,
   (duplicate_declaration_iff_local _ "x" _).2 rfl⟩

/-! ## Theorems: return statements (claim C3) -/

/-- C3 is a code bug: `core.fun` silently drops the `returnType` the
analyzer passes as a fifth argument, so `currentFunction.returnType` is
always `undefined`.  Consequently `Show f() -> num { give 5; }` — which
the claim says must succeed, since the types match exactly — is
rejected with `Cannot assign num to undefined`; and inside a function
declared `void` a value-bearing return of an `any`-typed expression —
which the claim says must be rejected — is accepted. -/
theorem return_type_check_bug :
    analyzeReturnStmt (.mk [] (some rootCtx) false (some (funDeclEntity "f" [] numTy)))
        (.numberLit 5) = .error "Cannot assign num to undefined" ∧
    analyzeReturnStmt (.mk [] (some rootCtx) false (some (funDeclEntity "g" [] voidTy)))
        (.varE "a" true anyTy) = .ok (.returnS (.varE "a" true anyTy)) :=
  ⟨rfl, rfl⟩

/-! ## Theorems: assignment and mutability (claim C4) -/

/-- C4 counterexample: the binding created by `Make x: num = 1;` is not
immutable — `VarDecl_varDecl` builds it with `core.variable(name, true,
varType)`, mutability flag `true`. -/
theorem make_binding_mutable_counterexample :
    analyzeVarDecl rootCtx "x" numTy (some (.numberLit 1)) =
      .ok (.mk (rootCtx.locals ++ [("x", .varE "x" true numTy)]) none false none,
           .varDeclS (.varE "x" true numTy) (.numberLit 1)) ∧
    isMutable (.varE "x" true numTy) = true :=
  ⟨rfl, rfl⟩

/-- C4 (amended): although `Make` bindings are mutable, every
assignment statement with a bare-identifier target is rejected with
`Cannot assign to immutable variable`, for every variable: the rep of
the left-hand identifier is a raw one-character string, never a
`Variable` entity, so `mustBeMutable` always fails. -/
theorem assignment_always_rejected (name : String) (source : Expr) :
    analyzeAssignValid (assignIdLhsRep name) source =
      .error "Cannot assign to immutable variable" := by
  simp [analyzeAssignValid, assignIdLhsRep, mustBeMutable, isMutable, Bind.bind, Except.bind]

/-! ## Theorems: the for-each loop (claim C6) -/

/-- C6 counterexample: `Keep x in <num-typed expression> { }` is
accepted (the claim requires a list type), the loop variable is typed
`any`, and after analysis the variable is bound in the *enclosing*
context (the claim scopes it to the loop body only). -/
theorem foreach_counterexample :
    analyzeLoopForEach (.mk [] none false none) "x" (.numberLit 5) (fun _ => .ok []) =
      .ok (.mk ([] ++ [("x", .varE "x" true anyTy)]) none false none,
           .forS (.varE "x" true anyTy) (.numberLit 5) []) ∧
    Ctx.lookup (.mk ([] ++ [("x", .varE "x" true anyTy)]) none false none) "x" =
      .ok (.varE "x" true anyTy) :=
  ⟨rfl, rfl⟩

/-- C6 (amended): for-each analysis does not require a list type — the
element type is the slice of a `list<...>` string type and `any` for
every other string type (object-valued or missing types throw).  The
loop variable is bound in the current (enclosing) context before the
body context is created: the body is analyzed in a fresh child of that
extended context with the loop flag set, and the extended context
itself — still holding the loop variable — is what analysis returns. -/
theorem foreach_amended (ctx : Ctx) (iterName : String) (collection : Expr)
    (bodyF : Ctx → Except String (List Stmt)) (elemTy : Ty) (body : List Stmt)
    (helem : loopElemTy collection.typeOf = .ok elemTy)
    (hname : ctx.hasLocal iterName = false)
    (hbody : bodyF (Ctx.mk []
        (some (.mk (ctx.locals ++ [(iterName, .varE iterName true elemTy)]) ctx.parent
          ctx.inLoop ctx.currentFunction)) true none) = .ok body) :
    analyzeLoopForEach ctx iterName collection bodyF =
      .ok (.mk (ctx.locals ++ [(iterName, .varE iterName true elemTy)]) ctx.parent
            ctx.inLoop ctx.currentFunction,
          .forS (.varE iterName true elemTy) collection body) := by
  obtain ⟨ls, p, il, cf⟩ := ctx
  simp only [Ctx.hasLocal, Ctx.locals] at hname
  simp only [Ctx.locals, Ctx.parent, Ctx.inLoop, Ctx.currentFunction] at hbody ⊢
  simp [analyzeLoopForEach, helem, Ctx.add, Ctx.hasLocal, Ctx.locals, Ctx.parent,
    Ctx.inLoop, Ctx.currentFunction, Ctx.newChildLoop, hname, hbody, Bind.bind, Except.bind]

/-- Witness for C6 (amended): iterating over a `list<num>`-typed
collection binds the loop variable at type `num` in the enclosing
context. -/
theorem foreach_amended_witness :
    analyzeLoopForEach (.mk [] none false none) "i"
        (.varE "xs" true (.str "list<num>")) (fun _ => .ok []) =
      .ok (.mk ([] ++ [("i", .varE "i" true (.str "num"))]) none false none,
          .forS (.varE "i" true (.str "num")) (.varE "xs" true (.str "list<num>")) []) :=
  foreach_amended _ "i" _ _ _ _ rfl rfl rfl

/-! ## Theorems: the comma-separated list same-type gate (claim C10) -/

theorem mustAllSameAux_ok_iff (e0 : Expr) (es : List Expr) :
    mustAllSameAux e0 es = .ok () ↔ ∀ e ∈ es, e0.typeOf = e.typeOf := by
  induction es with
  | nil => simp [mustAllSameAux]
  | cons e es ih =>
      by_cases h : e0.typeOf = e.typeOf <;>
        simp [mustAllSameAux, mustBothHaveSameType, h, ih, Bind.bind, Except.bind]

theorem mustAllSameAux_error (e0 : Expr) (es : List Expr)
    (h : ∃ e ∈ es, e0.typeOf ≠ e.typeOf) :
    mustAllSameAux e0 es = .error "Operands must have same type" := by
  induction es with
  | nil => simp at h
  | cons e es ih =>
      by_cases he : e0.typeOf = e.typeOf
      · obtain ⟨x, hx, hne⟩ := h
        rcases List.mem_cons.mp hx with rfl | hx2
        · exact absurd he hne
        · simp [mustAllSameAux, mustBothHaveSameType, he, Bind.bind, Except.bind,
            ih ⟨x, hx2, hne⟩]
      · simp [mustAllSameAux, mustBothHaveSameType, he, Bind.bind, Except.bind]

/-- C10: every comma-separated expression list — function-call argument
lists (`ArgList`), say-statement argument lists (`ExpList`), and the
same gate inside a call even when the declared parameter types differ —
requires every element's type to strictly equal the first element's
type, failing with `Operands must have same type` otherwise. -/
theorem same_type_gate (first : Expr) (rest : List Expr) :
    (argListRep first rest = .ok (first :: rest) ↔ ∀ e ∈ rest, first.typeOf = e.typeOf) ∧
    ((∃ e ∈ rest, first.typeOf ≠ e.typeOf) →
        argListRep first rest = .error "Operands must have same type" ∧
        expListRep first rest = .error "Operands must have same type" ∧
        analyzeSayStmt (some (first, rest)) = .error "Operands must have same type") ∧
    (∀ ctx idName target, ctx.lookup idName = .ok target →
        (∃ e ∈ rest, first.typeOf ≠ e.typeOf) →
        analyzeFunCallArgs ctx idName (some (first, rest)) =
          .error "Operands must have same type") := by
  refine ⟨?_, ?_, ?_⟩
  · by_cases h : ∀ e ∈ rest, first.typeOf = e.typeOf
    · simp only [argListRep, mustAllHaveSameType, (mustAllSameAux_ok_iff first rest).mpr h,
        Bind.bind, Except.bind]
      simpa using h
    · have hex : ∃ e ∈ rest, first.typeOf ≠ e.typeOf := by push_neg at h; exact h
      simp [argListRep, mustAllHaveSameType, mustAllSameAux_error first rest hex, h,
        Bind.bind, Except.bind]
  · intro hex
    refine ⟨?_, ?_, ?_⟩ <;>
      simp [argListRep, expListRep, analyzeSayStmt, mustAllHaveSameType,
        mustAllSameAux_error first rest hex, Bind.bind, Except.bind, Except.map]
  · intro ctx idName target hlook hex
    simp [analyzeFunCallArgs, hlook, argListRep, mustAllHaveSameType,
      mustAllSameAux_error first rest hex, Bind.bind, Except.bind]

/-- Witness for C10: `say(1, true)` (and the argument list of any call
`f(1, true)`) fails with the same-type error even though each argument
alone could be legal. -/
theorem same_type_gate_witness :
    analyzeSayStmt (some (.numberLit 1, [.boolLit true])) =
      .error "Operands must have same type" ∧
    analyzeFunCallArgs
        (.mk [("f", .funE (coreFun "f" (.fnT [numTy, boolTy] voidTy)))] none false none) "f"
        (some (.numberLit 1, [.boolLit true])) =
      .error "Operands must have same type" := by
  have hex : ∃ e ∈ [Expr.boolLit true], (Expr.numberLit 1).typeOf ≠ e.typeOf := by
    refine ⟨.boolLit true, by simp, by simp [Expr.typeOf, numTy, boolTy]⟩
  exact ⟨((same_type_gate (.numberLit 1) [.boolLit true]).2.1 hex).2.2,
    (same_type_gate (.numberLit 1) [.boolLit true]).2.2 _ "f"
      (.funE (coreFun "f" (.fnT [numTy, boolTy] voidTy))) rfl hex⟩

/-! ## Theorems: function-call checking (claim C7) -/

theorem mustBeAssignable_ok_iff (s t : Option Ty) :
    mustBeAssignable s t = .ok () ↔ (s = some anyTy ∨ t = some anyTy ∨ s = t) := by
  by_cases h1 : s = some anyTy <;> by_cases h2 : t = some anyTy <;> by_cases h3 : s = t <;>
    simp [mustBeAssignable, h1, h2, h3]

theorem checkCallArg_ok_iff (a : Expr) (t : Ty) :
    checkCallArg a (some t) = .ok () ↔ argOkSpec a t := by
  by_cases h : t = numTy
  · by_cases hn : a.typeOf = some numTy <;>
      simp [checkCallArg, argOkSpec, h, mustHaveNumericType, hn]
  · simp [checkCallArg, argOkSpec, h, mustBeAssignable_ok_iff]

theorem checkCallArgs_ok_iff (args : List Expr) (ps : List Ty)
    (hlen : ps.length = args.length) :
    checkCallArgs args ps = .ok () ↔ ∀ pr ∈ args.zip ps, argOkSpec pr.1 pr.2 := by
  induction args generalizing ps with
  | nil => simp [checkCallArgs]
  | cons a as ih =>
      cases ps with
      | nil => exact absurd hlen (by simp)
      | cons p ps2 =>
          have hlen2 : ps2.length = as.length := by simpa using hlen
          cases hc : checkCallArg a (some p) with
          | error e =>
              have hna : ¬ argOkSpec a p := by
                rw [← checkCallArg_ok_iff]; simp [hc]
              simp [checkCallArgs, hc, Bind.bind, Except.bind, hna]
          | ok u =>
              cases u
              have ha : argOkSpec a p := (checkCallArg_ok_iff a p).mp hc
              simp [checkCallArgs, hc, Bind.bind, Except.bind, ih ps2 hlen2, ha]

/-- C7: with the callee resolved and the argument list repped, the call
fails with `<name> is not a function` when the callee's type is not a
`FunctionType`; with a function callee it fails with the
expected/given arity message when the counts differ; and with matching
counts it reduces to the per-argument checks, which succeed exactly
when every argument satisfies the specification predicate `argOkSpec`
(assignability, with `num` parameters demanding exactly `num`) against
its parameter. -/
theorem funcall_checks (ctx : Ctx) (idName : String) (first : Expr) (rest : List Expr)
    (target : Expr) (args : List Expr)
    (hlook : ctx.lookup idName = .ok target)
    (hargs : argListRep first rest = .ok args) :
    ((∀ ps r, target.typeOf ≠ some (.fnT ps r)) →
        analyzeFunCallArgs ctx idName (some (first, rest)) =
          .error (idName ++ " is not a function")) ∧
    (∀ ps r, target.typeOf = some (.fnT ps r) → ps.length ≠ args.length →
        analyzeFunCallArgs ctx idName (some (first, rest)) =
          .error ("Expected " ++ toString ps.length ++ " arguments but got "
            ++ toString args.length)) ∧
    (∀ ps r, target.typeOf = some (.fnT ps r) → ps.length = args.length →
        analyzeFunCallArgs ctx idName (some (first, rest)) =
          (checkCallArgs args ps).bind (fun _ => coreFunctionCall target args) ∧
        (checkCallArgs args ps = .ok () ↔ ∀ pr ∈ args.zip ps, argOkSpec pr.1 pr.2)) := by
  refine ⟨?_, ?_, ?_⟩
  · intro hne
    cases ht : target.typeOf with
    | none => simp [analyzeFunCallArgs, hlook, hargs, ht, Bind.bind, Except.bind]
    | some t =>
        cases t with
        | str s => simp [analyzeFunCallArgs, hlook, hargs, ht, Bind.bind, Except.bind]
        | fnT ps r => exact absurd ht (hne ps r)
        | optT b => simp [analyzeFunCallArgs, hlook, hargs, ht, Bind.bind, Except.bind]
        | arrT b => simp [analyzeFunCallArgs, hlook, hargs, ht, Bind.bind, Except.bind]
        | mapT a b => simp [analyzeFunCallArgs, hlook, hargs, ht, Bind.bind, Except.bind]
  · intro ps r ht hlen
    simp [analyzeFunCallArgs, hlook, hargs, ht, hlen, Bind.bind, Except.bind]
  · intro ps r ht hlen
    exact ⟨by simp [analyzeFunCallArgs, hlook, hargs, ht, hlen, Bind.bind, Except.bind],
      checkCallArgs_ok_iff args ps hlen⟩

/-- Witness for C7: `Show f(x: num) {} f(1, 2);` fails with
`Expected 1 arguments but got 2`. -/
theorem funcall_checks_witness :
    analyzeFunCallArgs
        (.mk [("f", .funE (coreFun "f" (.fnT [numTy] voidTy)))] none false none) "f"
        (some (.numberLit 1, [.numberLit 2])) =
      .error ("Expected " ++ toString (1 : Nat) ++ " arguments but got "
        ++ toString (2 : Nat)) :=
  (funcall_checks (.mk [("f", .funE (coreFun "f" (.fnT [numTy] voidTy)))] none false none)
      "f" (.numberLit 1) [.numberLit 2] (.funE (coreFun "f" (.fnT [numTy] voidTy)))
      [.numberLit 1, .numberLit 2] rfl rfl).2.1 [numTy] voidTy rfl (by decide)

/-! ## Theorems: empty-list declaration (claim C8) -/

/-- C8: `Make xs: list<num> = [];` — the empty `ListLiteral` comes out
of `ListExp_listExp` typed `list<any>`, and `VarDecl_varDecl` unifies
its type to the declared `list<num>` before the assignability check, so
analysis succeeds and the initializer node in the produced
`VariableDeclaration` carries type `list<num>`. -/
theorem empty_list_initializer_unified :
    (listExpRep []).bind
        (fun init => analyzeVarDecl rootCtx "xs" (.str "list<num>") (some init)) =
      .ok (.mk (rootCtx.locals ++ [("xs", .varE "xs" true (.str "list<num>"))]) none false none,
           .varDeclS (.varE "xs" true (.str "list<num>"))
             (.listLit [] (some (.str "list<num>")))) := rfl

/-! ## Theorems: intrinsic call lowering (claim C9) -/

/-- C9 counterexample: the node built for a call of the void intrinsic
`print` is the `{kind: "Print", args}` node, and it does not carry the
intrinsic's declared return type — it has no type at all (reading
`.type` yields `undefined`). -/
theorem intrinsic_void_node_untyped :
    coreFunctionCall (.funE (intrinsicFun "print" (.fnT [anyTy] voidTy))) [.numberLit 1] =
      .ok (.voidCallNode "Print" [.numberLit 1]) ∧
    (Expr.voidCallNode "Print" [.numberLit 1]).typeOf = none :=
  ⟨rfl, rfl⟩

/-- C9 (amended): a call whose resolved callee is an intrinsic never
produces a `FunctionCall` node: a void return type yields a node whose
kind is the capitalized intrinsic name carrying only the arguments (no
type field), one declared parameter yields a `UnaryExpression` whose
operator is the intrinsic's name, any other parameter count a
`BinaryExpression`; the unary and binary nodes carry the declared
return type. -/
theorem intrinsic_call_shapes (f : FunEntity) (ps : List Ty) (ret : Ty) (args : List Expr)
    (hintr : f.intrinsic = true) (hty : f.ty = .fnT ps ret) :
    (ret = voidTy →
        coreFunctionCall (.funE f) args = .ok (.voidCallNode (capitalize f.name) args)) ∧
    (ret ≠ voidTy → ps.length = 1 →
        coreFunctionCall (.funE f) args =
          .ok (.unaryE f.name (args.headD .undef) (some ret))) ∧
    (ret ≠ voidTy → ps.length ≠ 1 →
        coreFunctionCall (.funE f) args =
          .ok (.binaryE f.name (args.headD .undef) (args.getD 1 .undef) (some ret))) ∧
    (∀ c as t, coreFunctionCall (.funE f) args ≠ .ok (.callE c as t)) := by
  refine ⟨?_, ?_, ?_, ?_⟩
  · intro hv; simp [coreFunctionCall, hintr, hty, hv]
  · intro hv h1; simp [coreFunctionCall, hintr, hty, hv, h1]
  · intro hv h1; simp [coreFunctionCall, hintr, hty, hv, h1]
  · intro c as t
    by_cases hv : ret = voidTy
    · simp [coreFunctionCall, hintr, hty, hv]
    · by_cases h1 : ps.length = 1 <;> simp [coreFunctionCall, hintr, hty, hv, h1]

/-- Witness for C9 (amended): `sqrt` (one numeric parameter, non-void)
lowers to a `UnaryExpression` carrying return type `num`. -/
theorem intrinsic_call_shapes_witness :
    coreFunctionCall (.funE (intrinsicFun "sqrt" (.fnT [numTy] numTy))) [.numberLit 2] =
      .ok (.unaryE "sqrt" (.numberLit 2) (some numTy)) :=
  (intrinsic_call_shapes (intrinsicFun "sqrt" (.fnT [numTy] numTy)) [numTy] numTy
    [.numberLit 2] rfl rfl).2.1 (by decide) rfl

/-! ## Theorems: optimizer constant folding (claim C2) -/

theorem binRules_mul_zero (l : Expr) (ty : Option Ty) :
    binRules "*" l (.jsNum 0) ty = .jsNum 0 := by
  cases l <;>
    simp [binRules, binShortcut, foldConst, foldOp, leftRed, rightRed, Expr.isJsNum,
      Expr.isZeroNum, Expr.isOneNum, Expr.isEmptyOptionalNode, Expr.isTrueLit,
      Expr.isFalseLit]

/-! ## Theorems: optimizer idempotence (claim C1) — expression side -/

theorem isZeroNum_eq (l : Expr) (h : l.isZeroNum = true) : l = .jsNum 0 := by
  cases l <;> simp_all [Expr.isZeroNum]

theorem binShortcut_cases (op : String) (l r : Expr) (e : Expr)
    (h : binShortcut op l r = some e) : e = l ∨ e = r := by
  unfold binShortcut at h
  split_ifs at h <;> simp_all

theorem foldOp_cases (op : String) (a b : ℚ) (e : Expr) (h : foldOp op a b = some e) :
    (∃ v, e = .jsNum v) ∨ (∃ b2, e = .jsBool b2) := by
  unfold foldOp at h
  split_ifs at h <;> (try (injection h with h2; subst h2)) <;>
    first
    | exact Or.inl ⟨_, rfl⟩
    | exact Or.inr ⟨_, rfl⟩
    | exact absurd h (by simp)

theorem foldConst_cases (op : String) (l r : Expr) (e : Expr)
    (h : foldConst op l r = some e) :
    (∃ v, e = .jsNum v) ∨ (∃ b, e = .jsBool b) := by
  cases l <;> try exact Option.noConfusion h
  case jsNum a =>
    cases r <;> try exact Option.noConfusion h
    case jsNum b => exact foldOp_cases op a b e h

theorem unRules_not_num (op : String) (x : Expr) (ty : Option Ty) (h : x.isJsNum = false) :
    unRules op x ty = .unaryE op x ty := by
  cases x <;> simp_all [unRules, Expr.isJsNum]

theorem unRules_fix (op : String) (x : Expr) (ty : Option Ty) (hx : optE x = x) :
    optE (unRules op x ty) = unRules op x ty := by
  cases hn : x.isJsNum
  · rw [unRules_not_num op x ty hn]
    have h1 : optE (.unaryE op x ty) = unRules op (optE x) ty := by simp [optE]
    rw [h1, hx, unRules_not_num op x ty hn]
  · obtain ⟨v, rfl⟩ : ∃ v, x = .jsNum v := by
      cases x <;> first | exact ⟨_, rfl⟩ | simp_all [Expr.isJsNum]
    unfold unRules
    split_ifs with hop
    · simp [optE]
    · have h1 : optE (.unaryE op (.jsNum v) ty) = unRules op (optE (.jsNum v)) ty := by
        simp [optE]
      rw [h1]
      show unRules op (.jsNum v) ty = .unaryE op (.jsNum v) ty
      unfold unRules
      simp [hop]

theorem condRules_fix (t c a : Expr) (ty : Option Ty)
    (ht : optE t = t) (hc : optE c = c) (ha : optE a = a) :
    optE (condRules t c a ty) = condRules t c a ty := by
  unfold condRules
  split_ifs with h1 h2
  · exact hc
  · exact ha
  · simp [optE, ht, hc, ha, condRules, h1, h2]

theorem binRules_fix (op : String) (l r : Expr) (ty : Option Ty)
    (hl : optE l = l) (hr : optE r = r) :
    optE (binRules op l r ty) = binRules op l r ty := by
  have hbe : optE (.binaryE op l r ty) = binRules op l r ty := by
    simp [optE, hl, hr]
  cases hs : binShortcut op l r with
  | some e =>
      have hre : binRules op l r ty = e := by simp [binRules, hs]
      rw [hre]
      rcases binShortcut_cases op l r e hs with rfl | rfl
      · exact hl
      · exact hr
  | none =>
    cases hf : foldConst op l r with
    | some e =>
        have hre : binRules op l r ty = e := by simp [binRules, hs, hf]
        rw [hre]
        rcases foldConst_cases op l r e hf with ⟨v, rfl⟩ | ⟨b, rfl⟩ <;> simp [optE]
    | none =>
        have hre : binRules op l r ty = leftRed op l r ty := by simp [binRules, hs, hf]
        rw [hre]
        unfold leftRed rightRed
        split_ifs with h1 h2 h3 h4 h5 h6 h7 h8 h9 h10
        · exact hr
        · exact hr
        · -- the 0 - x ⇒ unary-negation branch
          obtain ⟨hz0, hopm⟩ := h4
          have hl0 : l = .jsNum 0 := isZeroNum_eq l hz0
          subst hl0; subst hopm
          have hrn : r.isJsNum = false := by
            cases r <;> simp_all [foldConst, foldOp, Expr.isJsNum]
          have h1u : optE (.unaryE "-" r r.typeOf) = unRules "-" (optE r) r.typeOf := by
            simp [optE]
          rw [h1u, hr]
          exact unRules_not_num "-" r r.typeOf hrn
        · simp [optE]
        · exact hl
        · exact hl
        · simp [optE]
        · simp [optE]
        · rw [hbe, hre]
          unfold leftRed rightRed
          simp [h1, h2, h3, h4, h5, h6, h7, h8, h9, h10]
        · rw [hbe, hre]
          unfold leftRed rightRed
          simp [h1, h2, h3, h4, h5, h6]
        · exact hl
        · exact hl
        · simp [optE]
        · simp [optE]
        · rw [hbe, hre]
          unfold leftRed rightRed
          simp_all
          try (split_ifs <;> simp_all)
        · rw [hbe, hre]
          unfold leftRed rightRed
          simp_all
          try (split_ifs <;> simp_all)

mutual
theorem optE_idem : ∀ e : Expr, optE (optE e) = optE e
  | .jsNum _ => by simp [optE]
  | .jsBool _ => by simp [optE]
  | .jsStr _ => by simp [optE]
  | .undef => by simp [optE]
  | .numberLit _ => by simp [optE]
  | .stringLit _ => by simp [optE]
  | .boolLit _ => by simp [optE]
  | .varE _ _ _ => by simp [optE]
  | .funE _ => by simp [optE]
  | .binaryE op l r ty => by
      have hl := optE_idem l
      have hr := optE_idem r
      have h1 : optE (.binaryE op l r ty) = binRules op (optE l) (optE r) ty := by simp [optE]
      rw [h1]
      exact binRules_fix op (optE l) (optE r) ty hl hr
  | .unaryE op x ty => by
      have hx := optE_idem x
      have h1 : optE (.unaryE op x ty) = unRules op (optE x) ty := by simp [optE]
      rw [h1]
      exact unRules_fix op (optE x) ty hx
  | .condE t c a ty => by
      have h1 : optE (.condE t c a ty) = condRules (optE t) (optE c) (optE a) ty := by
        simp [optE]
      rw [h1]
      exact condRules_fix _ _ _ ty (optE_idem t) (optE_idem c) (optE_idem a)
  | .emptyOptional _ => by simp [optE]
  | .subscriptE arr idx ty => by
      have h := optE_idem idx
      simp [optE, h]
  | .arrayE els ty => by
      have h := optEList_idem els
      simp [optE, h]
  | .emptyArrayE _ => by simp [optE]
  | .memberE obj op f ty => by
      have h := optE_idem obj
      simp [optE, h]
  | .callE c args ty => by
      have h := optEList_idem args
      simp [optE, h]
  | .ctorCallE args ty => by
      have h := optEList_idem args
      simp [optE, h]
  | .listLit _ _ => by simp [optE]
  | .voidCallNode k args => by
      by_cases hk : k = "Print"
      · have h := optEList_idem args
        simp [optE, hk, h]
      · simp [optE, hk]
  | .unknownE _ => by simp [optE]

theorem optEList_idem : ∀ es : List Expr, optEList (optEList es) = optEList es
  | [] => by simp [optEList]
  | e :: es => by
      have h1 := optE_idem e
      have h2 := optEList_idem es
      simp [optEList, h1, h2]
end

/-! ## Theorems: optimizer idempotence (claim C1) — statement side -/

theorem optSList_of_listFixed (ss : List Stmt) (h : ListFixed ss) : optSList ss = some ss := by
  induction ss with
  | nil => simp [optSList]
  | cons s rest ih =>
      have hs : optS s = some (.node s) := h s (List.mem_cons_self s rest)
      have hr : optSList rest = some rest := ih (fun x hx => h x (List.mem_cons_of_mem s hx))
      simp [optSList, hs, hr, Option.bind_eq_bind, Option.some_bind, SRes.toList]

theorem optS_kind_if : ∀ (s t : Stmt), optS s = some (.node t) →
    s.kindEndsWithIf = true → t.kindEndsWithIf = true
  | .varDeclS _ _, _, _, hk => Bool.noConfusion hk
  | .funDeclS _ _, _, _, hk => Bool.noConfusion hk
  | .incrementS _, _, _, hk => Bool.noConfusion hk
  | .decrementS _, _, _, hk => Bool.noConfusion hk
  | .assignS _ _, _, _, hk => Bool.noConfusion hk
  | .breakS, _, _, hk => Bool.noConfusion hk
  | .continueS, _, _, hk => Bool.noConfusion hk
  | .shortReturnS, _, _, hk => Bool.noConfusion hk
  | .returnS _, _, _, hk => Bool.noConfusion hk
  | .whileS _ _, _, _, hk => Bool.noConfusion hk
  | .repeatS _ _, _, _, hk => Bool.noConfusion hk
  | .forRangeS _ _ _ _ _, _, _, hk => Bool.noConfusion hk
  | .forS _ _ _, _, _, hk => Bool.noConfusion hk
  | .tryS _ _ _, _, _, hk => Bool.noConfusion hk
  | .sayS _, _, _, hk => Bool.noConfusion hk
  | .unknownS tag, t, h, hk => by
      simp only [optS, Option.some.injEq, SRes.node.injEq] at h
      subst h; exact hk
  | .shortIfS test cons, t, h, hk => by
      simp only [optS] at h
      cases hc : optSList cons with
      | none => rw [hc] at h; simp [Option.bind_eq_bind, Option.none_bind, Option.some_bind] at h
      | some c =>
          rw [hc] at h
          simp only [Option.bind_eq_bind, Option.some_bind] at h
          split_ifs at h with h1 h2 <;> simp at h
          obtain ⟨rfl⟩ := h
          rfl
  | .exprStmt e, t, h, hk => by
      simp only [optS, Option.some.injEq, SRes.node.injEq] at h
      subst h
      cases e <;> try exact Bool.noConfusion hk
      case voidCallNode k args =>
          by_cases hp : k = "Print" <;>
            simp_all [optE, Stmt.kindEndsWithIf, Stmt.kind, Expr.kind]
      case unknownE tag =>
          simpa [optE, Stmt.kindEndsWithIf, Stmt.kind, Expr.kind] using hk
  | .ifS test cons alt, t, h, hk => by
      simp only [optS] at h
      cases hc : optSList cons with
      | none => rw [hc] at h; simp [Option.bind_eq_bind, Option.none_bind, Option.some_bind] at h
      | some c =>
          rw [hc] at h
          cases ha : optAlt alt with
          | none => rw [ha] at h; simp [Option.bind_eq_bind, Option.none_bind, Option.some_bind] at h
          | some a =>
              rw [ha] at h
              simp only [Option.bind_eq_bind, Option.some_bind] at h
              split_ifs at h with h1 h2
              · simp at h
              · -- the result is the optimized alternate node
                simp only [Option.pure_def, Option.some.injEq] at h
                subst h
                cases alt with
                | nullAlt => simp [optAlt] at ha
                | blockAlt ss =>
                    simp only [optAlt] at ha
                    cases hss : optSList ss <;> rw [hss] at ha <;> simp at ha
                | nodeAlt s0 =>
                    simp only [optAlt] at ha
                    by_cases hk0 : s0.kindEndsWithIf = true
                    · rw [if_pos hk0] at ha
                      exact optS_kind_if s0 t ha hk0
                    · rw [if_neg hk0] at ha; simp at ha
              · simp only [pure, Option.some.injEq, SRes.node.injEq] at h
                subst h
                rfl

theorem optAlt_node_kind (alt : Alt) (s : Stmt) (h : optAlt alt = some (.node s)) :
    s.kindEndsWithIf = true := by
  cases alt with
  | nullAlt => simp [optAlt] at h
  | nodeAlt s0 =>
      simp only [optAlt] at h
      split_ifs at h with hk
      · exact optS_kind_if s0 s h hk
  | blockAlt ss =>
      simp only [optAlt] at h
      cases hss : optSList ss <;> rw [hss] at h <;> simp at h

theorem optAlt_toAlt (a : SRes) (hfix : ResFixed a)
    (hknode : ∀ s, a = .node s → s.kindEndsWithIf = true) :
    optAlt a.toAlt = some a := by
  cases a with
  | node s =>
      have hk : s.kindEndsWithIf = true := hknode s rfl
      simp only [SRes.toAlt, optAlt, if_pos hk]
      exact hfix
  | list ss =>
      simp only [SRes.toAlt, optAlt]
      rw [optSList_of_listFixed ss hfix]
      rfl

mutual
theorem optS_fix : ∀ (s : Stmt) (r : SRes), optS s = some r → ResFixed r
  | .varDeclS v init, r, h => by
      simp only [optS, Option.some.injEq] at h
      subst h
      simp [ResFixed, StmtFixed, optS, optE_idem]
  | .funDeclS fn body, r, h => by
      simp only [optS] at h
      cases hb : optSList body with
      | none => rw [hb] at h; simp at h
      | some b =>
          rw [hb] at h
          simp only [Option.map_some', Option.some.injEq] at h
          subst h
          have hfix : ListFixed b := optSList_fix body b hb
          simp [ResFixed, StmtFixed, optS, optSList_of_listFixed b hfix]
  | .incrementS v, r, h => by
      simp only [optS, Option.some.injEq] at h
      subst h
      simp [ResFixed, StmtFixed, optS, optE_idem]
  | .decrementS v, r, h => by
      simp only [optS, Option.some.injEq] at h
      subst h
      simp [ResFixed, StmtFixed, optS, optE_idem]
  | .assignS target source, r, h => by
      simp only [optS] at h
      by_cases he : Expr.eqb (optE source) (optE target) = true
      · rw [if_pos he] at h
        simp only [Option.some.injEq] at h
        subst h
        intro x hx
        exact absurd hx (List.not_mem_nil x)
      · rw [if_neg he] at h
        simp only [Option.some.injEq] at h
        subst h
        show optS (.assignS (optE target) (optE source)) =
          some (.node (.assignS (optE target) (optE source)))
        simp only [optS, optE_idem]
        rw [if_neg he]
  | .breakS, r, h => by
      simp only [optS, Option.some.injEq] at h
      subst h
      simp [ResFixed, StmtFixed, optS]
  | .continueS, r, h => by
      simp only [optS, Option.some.injEq] at h
      subst h
      simp [ResFixed, StmtFixed, optS]
  | .shortReturnS, r, h => by
      simp only [optS, Option.some.injEq] at h
      subst h
      simp [ResFixed, StmtFixed, optS]
  | .returnS e, r, h => by
      simp only [optS, Option.some.injEq] at h
      subst h
      simp [ResFixed, StmtFixed, optS, optE_idem]
  | .ifS test cons alt, r, h => by
      simp only [optS] at h
      cases hc : optSList cons with
      | none => rw [hc] at h; simp [Option.bind_eq_bind, Option.none_bind, Option.some_bind] at h
      | some c =>
          rw [hc] at h
          cases ha : optAlt alt with
          | none => rw [ha] at h; simp [Option.bind_eq_bind, Option.none_bind, Option.some_bind] at h
          | some a =>
              rw [ha] at h
              simp only [Option.bind_eq_bind, Option.some_bind] at h
              have hcfix : ListFixed c := optSList_fix cons c hc
              have hafix : ResFixed a := optAlt_fix alt a ha
              split_ifs at h with h1 h2
              · simp only [Option.pure_def, Option.some.injEq] at h
                subst h
                exact hcfix
              · simp only [Option.pure_def, Option.some.injEq] at h
                subst h
                exact hafix
              · simp only [Option.pure_def, Option.some.injEq] at h
                subst h
                show optS (.ifS (optE test) c a.toAlt) =
                  some (.node (.ifS (optE test) c a.toAlt))
                have htoalt : optAlt a.toAlt = some a :=
                  optAlt_toAlt a hafix (fun s hs =>
                    optAlt_node_kind alt s (by rw [ha, hs]))
                simp only [optS, optE_idem]
                rw [optSList_of_listFixed c hcfix, htoalt]
                simp [Option.bind_eq_bind, Option.some_bind, Option.pure_def, optE_idem, h1, h2]
  | .shortIfS test cons, r, h => by
      simp only [optS] at h
      cases hc : optSList cons with
      | none => rw [hc] at h; simp [Option.bind_eq_bind, Option.none_bind, Option.some_bind] at h
      | some c =>
          rw [hc] at h
          simp only [Option.bind_eq_bind, Option.some_bind] at h
          have hcfix : ListFixed c := optSList_fix cons c hc
          split_ifs at h with h1 h2
          · simp only [Option.pure_def, Option.some.injEq] at h
            subst h
            exact hcfix
          · simp only [Option.pure_def, Option.some.injEq] at h
            subst h
            intro x hx
            exact absurd hx (List.not_mem_nil x)
          · simp only [Option.pure_def, Option.some.injEq] at h
            subst h
            show optS (.shortIfS (optE test) c) = some (.node (.shortIfS (optE test) c))
            simp only [optS]
            rw [optSList_of_listFixed c hcfix]
            simp [Option.bind_eq_bind, Option.some_bind, Option.pure_def, optE_idem, h1, h2]
  | .whileS test body, r, h => by
      simp only [optS] at h
      by_cases ht : (optE test).isFalseLit = true
      · rw [if_pos ht] at h
        simp only [Option.some.injEq] at h
        subst h
        intro x hx
        exact absurd hx (List.not_mem_nil x)
      · rw [if_neg ht] at h
        cases hb : optSList body with
        | none => rw [hb] at h; simp at h
        | some b =>
            rw [hb] at h
            simp only [Option.map_some', Option.some.injEq] at h
            subst h
            have hfix : ListFixed b := optSList_fix body b hb
            show optS (.whileS (optE test) b) = some (.node (.whileS (optE test) b))
            simp only [optS, optE_idem]
            rw [if_neg ht, optSList_of_listFixed b hfix]
            rfl
  | .repeatS count body, r, h => by
      simp only [optS] at h
      by_cases ht : (optE count).isZeroNum = true
      · rw [if_pos ht] at h
        simp only [Option.some.injEq] at h
        subst h
        intro x hx
        exact absurd hx (List.not_mem_nil x)
      · rw [if_neg ht] at h
        cases hb : optSList body with
        | none => rw [hb] at h; simp at h
        | some b =>
            rw [hb] at h
            simp only [Option.map_some', Option.some.injEq] at h
            subst h
            have hfix : ListFixed b := optSList_fix body b hb
            show optS (.repeatS (optE count) b) = some (.node (.repeatS (optE count) b))
            simp only [optS, optE_idem]
            rw [if_neg ht, optSList_of_listFixed b hfix]
            rfl
  | .forRangeS iter low op hi body, r, h => by
      simp only [optS] at h
      cases hb : optSList body with
      | none => rw [hb] at h; simp [Option.bind_eq_bind, Option.none_bind, Option.some_bind] at h
      | some b =>
          rw [hb] at h
          simp only [Option.bind_eq_bind, Option.some_bind] at h
          have hfix : ListFixed b := optSList_fix body b hb
          split_ifs at h with h1
          · simp only [Option.pure_def, Option.some.injEq] at h
            subst h
            intro x hx
            exact absurd hx (List.not_mem_nil x)
          · simp only [Option.pure_def, Option.some.injEq] at h
            subst h
            show optS (.forRangeS iter (optE low) op (optE hi) b) =
              some (.node (.forRangeS iter (optE low) op (optE hi) b))
            simp only [optS, optE_idem]
            rw [optSList_of_listFixed b hfix]
            simp [Option.bind_eq_bind, Option.some_bind, Option.pure_def, optE_idem, h1]
  | .forS iter coll body, r, h => by
      simp only [optS] at h
      cases hb : optSList body with
      | none => rw [hb] at h; simp [Option.bind_eq_bind, Option.none_bind, Option.some_bind] at h
      | some b =>
          rw [hb] at h
          simp only [Option.bind_eq_bind, Option.some_bind] at h
          have hfix : ListFixed b := optSList_fix body b hb
          split_ifs at h with h1
          · simp only [Option.pure_def, Option.some.injEq] at h
            subst h
            intro x hx
            exact absurd hx (List.not_mem_nil x)
          · simp only [Option.pure_def, Option.some.injEq] at h
            subst h
            show optS (.forS iter (optE coll) b) = some (.node (.forS iter (optE coll) b))
            simp only [optS, optE_idem]
            rw [optSList_of_listFixed b hfix]
            simp [Option.bind_eq_bind, Option.some_bind, Option.pure_def, optE_idem, h1]
  | .tryS a v b, r, h => by
      simp only [optS, Option.some.injEq] at h
      subst h
      simp [ResFixed, StmtFixed, optS]
  | .sayS args, r, h => by
      simp only [optS, Option.some.injEq] at h
      subst h
      simp [ResFixed, StmtFixed, optS]
  | .exprStmt e, r, h => by
      simp only [optS, Option.some.injEq] at h
      subst h
      simp [ResFixed, StmtFixed, optS, optE_idem]
  | .unknownS tag, r, h => by
      simp only [optS, Option.some.injEq] at h
      subst h
      simp [ResFixed, StmtFixed, optS]

theorem optSList_fix : ∀ (ss out : List Stmt), optSList ss = some out → ListFixed out
  | [], out, h => by
      simp only [optSList, Option.some.injEq] at h
      subst h
      intro x hx
      exact absurd hx (List.not_mem_nil x)
  | s :: rest, out, h => by
      simp only [optSList] at h
      cases hr : optS s with
      | none => rw [hr] at h; simp [Option.bind_eq_bind, Option.none_bind, Option.some_bind] at h
      | some r =>
          rw [hr] at h
          cases hrest : optSList rest with
          | none => rw [hrest] at h; simp [Option.bind_eq_bind, Option.none_bind, Option.some_bind] at h
          | some rest2 =>
              rw [hrest] at h
              simp only [Option.bind_eq_bind, Option.some_bind, Option.pure_def, Option.some.injEq] at h
              subst h
              intro x hx
              rcases List.mem_append.mp hx with hx1 | hx2
              · have hfix := optS_fix s r hr
                cases r with
                | node s2 =>
                    simp only [SRes.toList, List.mem_singleton] at hx1
                    subst hx1
                    exact hfix
                | list ss2 =>
                    simp only [SRes.toList] at hx1
                    exact hfix x hx1
              · exact optSList_fix rest rest2 hrest x hx2

theorem optAlt_fix : ∀ (a : Alt) (r : SRes), optAlt a = some r → ResFixed r
  | .nullAlt, r, h => by simp [optAlt] at h
  | .nodeAlt s, r, h => by
      simp only [optAlt] at h
      split_ifs at h with hk
      · exact optS_fix s r h
  | .blockAlt ss, r, h => by
      simp only [optAlt] at h
      cases hss : optSList ss with
      | none => rw [hss] at h; simp at h
      | some out =>
          rw [hss] at h
          simp only [Option.map_some', Option.some.injEq] at h
          subst h
          exact optSList_fix ss out hss
end

/-- C1: the optimizer is idempotent.  Expressions: a second pass over an
already-optimized expression returns it unchanged.  Programs: `optP`
models `optimize` on a `Program` (`none` = the `TypeError` the source
throws on an `IfStatement` whose `alternate` is `null`); whenever the
first pass produces an optimized program, a second pass returns exactly
that program, and a crashing input crashes identically on both sides,
so `optP` composed with itself (Kleisli) equals `optP`. -/
theorem optimize_idempotent :
    (∀ e : Expr, optE (optE e) = optE e) ∧
    ∀ p : Program, (optP p).bind optP = optP p := by
  refine ⟨optE_idem, ?_⟩
  intro p
  cases h : optSList p.statements with
  | none => simp [optP, h]
  | some ss =>
      have hfix : optSList ss = some ss :=
        optSList_of_listFixed ss (optSList_fix p.statements ss h)
      simp [optP, h, Option.bind_eq_bind, Option.some_bind, Option.bind, hfix]

/-- C2: `optimize(BinaryExpr("+", 3, 4))` folds to the literal `7`, and
for every expression `X` — constant or not — and every type annotation,
`optimize(BinaryExpr("*", X, 0))` is the literal `0` (the rule fires on
the literal-zero side regardless of the shape of `X`). -/
theorem optimize_constant_fold_examples :
    optE (.binaryE "+" (.jsNum 3) (.jsNum 4) none) = .jsNum 7 ∧
    ∀ (X : Expr) (ty : Option Ty), optE (.binaryE "*" X (.jsNum 0) ty) = .jsNum 0 := by
  constructor
  · show binRules "+" (optE (.jsNum 3)) (optE (.jsNum 4)) none = .jsNum 7
    simp [optE, binRules, binShortcut, foldConst, foldOp]
    try norm_num
  · intro X ty
    show binRules "*" (optE X) (optE (.jsNum 0)) ty = .jsNum 0
    have h0 : optE (.jsNum 0) = .jsNum 0 := by simp [optE]
    rw [h0, binRules_mul_zero]

end Gitz
